import Mathlib

/-!
Verification of the audit-logging wrapper of the court-calendar repository
(`court-cal-agent/gcalcli_wrapper.py`).

The development shallowly embeds the wrapper's command parser
(`GcalcliAuditor._parse_gcalcli_command`), the audit-record construction
(`GcalcliAuditor.log_command`), the orchestration function
(`execute_gcalcli_with_audit`), the CLI entry point (`main`), and the
database initialization (`GcalcliAuditor._init_database`).

Strings are modelled as `List Char` (via `String.data`); the Python regular
expressions used by the parser are simple enough that their leftmost-match
semantics is implemented directly by scanning functions, with the greedy
quantifier and backtracking behaviour of each concrete pattern worked out in
the comments next to each matcher.  Character classes are modelled at their
ASCII core (the arguments handled by the wrapper are ASCII).

Effects (subprocess execution, SQLite inserts) are modelled by explicit
parameters: the subprocess result is an `ExecOutcome` input, and the audit
store is a function from the append-attempt index to an optional raised
error message, so that both a reliable store and a failing store can be
examined.  Each run returns, besides its Python return value, the list of
externally visible events (subprocess invocation, successful append, failed
append) in the order the source performs them.
-/

namespace GcalcliWrapper

/-- ASCII core of the Python regex class \s (space, tab, newline, carriage
return, vertical tab, form feed). -/
def isSpaceChar (c : Char) : Bool :=
  c == ' ' || c == '\t' || c == '\n' || c == '\r' || c == Char.ofNat 11 || c == Char.ofNat 12

/-- The regex class [A-Z]. -/
def isUpperChar (c : Char) : Bool :=
  'A' ≤ c && c ≤ 'Z'

/-- ASCII core of the regex class \d. -/
def isDigitChar (c : Char) : Bool :=
  '0' ≤ c && c ≤ '9'

/-- Python re: matching the tail of pattern KEY\s+"([^"]+)" after KEY, i.e.
one-or-more whitespace.  Backtracking on the greedy \s+ never helps (a
shortened run exposes another whitespace character, not the required quote),
so the semantics is: consume one whitespace character, then the maximal
whitespace run. -/
def dropSpaces1 (cs : List Char) : Option (List Char) :=
  match cs with
  | [] => none
  | c :: rest => if isSpaceChar c then some (rest.dropWhile isSpaceChar) else none

/-- Python re: matching "([^"]+)" at the head of the input and returning the
capture.  The greedy [^"]+ cannot cross a quote, so the capture is exactly
the maximal quote-free run after the opening quote, which must be nonempty
and must be followed by the closing quote. -/
def matchQuoted (cs : List Char) : Option (List Char) :=
  match cs with
  | [] => none
  | c :: rest =>
    if c = '"' then
      let cap := rest.takeWhile (fun x => x != '"')
      if cap = [] then none
      else if rest.drop cap.length = [] then none
      else some cap
    else none

/-- Matching the full pattern KEY\s+"([^"]+)" anchored at the start of cs. -/
def matchKeyAt (key : List Char) (cs : List Char) : Option (List Char) :=
  if cs.take key.length = key then
    match dropSpaces1 (cs.drop key.length) with
    | some q => matchQuoted q
    | none => none
  else none

/-- Python re.search of KEY\s+"([^"]+)": try the anchored match at every
position, left to right, and return the first capture. -/
def searchFlag (key : List Char) : List Char → Option (List Char)
  | [] => none
  | c :: rest =>
    match matchKeyAt key (c :: rest) with
    | some cap => some cap
    | none => searchFlag key rest

/-- Greedy one-or-more run of characters satisfying p; returns the run and
the remaining input. -/
def takeRun (p : Char → Bool) (cs : List Char) : Option (List Char × List Char) :=
  let r := cs.takeWhile p
  if r = [] then none else some (r, cs.drop r.length)

/-- Expect a literal dash. -/
def expectDash : List Char → Option (List Char)
  | '-' :: rest => some rest
  | _ => none

/-- Matching the case-number pattern ([A-Z]-\d+-[A-Z]+-\d+-\d+) anchored at
the start of the input (source line 126).  Each greedy one-or-more class is
followed by a dash (or nothing), which the class cannot match, so
backtracking never helps and each run is simply maximal. -/
def matchCaseAt : List Char → Option (List Char)
  | [] => none
  | c0 :: cs1 =>
    if isUpperChar c0 then
      (expectDash cs1).bind fun cs2 =>
      (takeRun isDigitChar cs2).bind fun p1 =>
      (expectDash p1.2).bind fun cs4 =>
      (takeRun isUpperChar cs4).bind fun p2 =>
      (expectDash p2.2).bind fun cs6 =>
      (takeRun isDigitChar cs6).bind fun p3 =>
      (expectDash p3.2).bind fun cs8 =>
      (takeRun isDigitChar cs8).map fun p4 =>
        c0 :: '-' :: (p1.1 ++ '-' :: (p2.1 ++ '-' :: (p3.1 ++ '-' :: p4.1)))
    else none

/-- re.search of the case-number pattern: leftmost match. -/
def searchCase : List Char → Option (List Char)
  | [] => none
  | c :: rest =>
    match matchCaseAt (c :: rest) with
    | some m => some m
    | none => searchCase rest

/-- The literal marker of the defendant-name pattern. -/
def courtKey : List Char := ['C', 'o', 'u', 'r', 't', ':']

/-- Matching Court:\s*([^-]+) anchored at the start of the input (source
line 131), returning group 1.  The greedy \s* takes the maximal whitespace
run; if a non-dash character follows, the capture is the maximal non-dash
run from there.  Otherwise the regex backtracks one whitespace character
(whitespace is itself non-dash), so when the whitespace run is nonempty the
capture is exactly its last character; with no whitespace the match fails at
this position. -/
def matchCourtAt (cs : List Char) : Option (List Char) :=
  if cs.take courtKey.length = courtKey then
    let tail := cs.drop courtKey.length
    let w := tail.takeWhile isSpaceChar
    let afterW := tail.drop w.length
    let cap := afterW.takeWhile (fun x => x != '-')
    if cap ≠ [] then some cap
    else
      match w.getLast? with
      | some c => some [c]
      | none => none
  else none

/-- re.search of the defendant-name pattern: leftmost match. -/
def searchCourt : List Char → Option (List Char)
  | [] => none
  | c :: rest =>
    match matchCourtAt (c :: rest) with
    | some m => some m
    | none => searchCourt rest

/-- Python str.strip(): remove leading and trailing whitespace. -/
def stripSpaces (cs : List Char) : List Char :=
  ((cs.dropWhile isSpaceChar).reverse.dropWhile isSpaceChar).reverse

/-- Python " ".join(args), producing the character list of the joined
command string (source line 97). -/
def joinSpace : List String → List Char
  | [] => []
  | [a] => a.data
  | a :: b :: rest => a.data ++ ' ' :: joinSpace (b :: rest)

/-- The dictionary built by GcalcliAuditor._parse_gcalcli_command. -/
structure ParseDetails where
  operation : String
  calendar_name : Option String
  event_title : Option String
  event_date : Option String
  case_number : Option String
  defendant_name : Option String
deriving Repr, DecidableEq

/-- GcalcliAuditor._parse_gcalcli_command (source lines 77-140).  Operation
classification tests literal tokens by Python list membership, i.e. exact
whole-argument equality; field extraction runs the quoted-flag patterns over
the space-joined command string.  The Python guard on line 125 tests the
truthiness of event_title, which coincides with presence because every
extracted title capture is nonempty. -/
def parse_gcalcli_command (args : List String) : ParseDetails :=
  let cmd_str := joinSpace args
  let operation :=
    if "add" ∈ args ∨ "quick" ∈ args then "add"
    else if "edit" ∈ args then "edit"
    else if "delete" ∈ args then "delete"
    else if "agenda" ∈ args ∨ "list" ∈ args then "read"
    else "unknown"
  let calendar_name := (searchFlag "--calendar".data cmd_str).map (fun l => String.mk l)
  let event_title :=
    match searchFlag "--title".data cmd_str with
    | some t => some (String.mk t)
    | none =>
      if "quick" ∈ args then (searchFlag "quick".data cmd_str).map (fun l => String.mk l)
      else none
  let event_date := (searchFlag "--when".data cmd_str).map (fun l => String.mk l)
  let case_number := event_title.bind (fun t => (searchCase t.data).map (fun l => String.mk l))
  let defendant_name :=
    event_title.bind (fun t => (searchCourt t.data).map (fun l => String.mk (stripSpaces l)))
  { operation := operation
    calendar_name := calendar_name
    event_title := event_title
    event_date := event_date
    case_number := case_number
    defendant_name := defendant_name }

/-- One row of the calendar_audit table, as assembled by
GcalcliAuditor.log_command (source lines 159-174).  The metadata column
holds json.dumps of the raw argument list; the JSON rendering is pure
formatting, so the model keeps the argument list itself. -/
structure AuditRecord where
  timestamp : String
  operation : String
  command : String
  calendar_name : Option String
  event_title : Option String
  event_date : Option String
  event_id : Option String
  case_number : Option String
  defendant_name : Option String
  success : Bool
  error_message : Option String
  output : String
  session_id : String
  metadata_args : List String
deriving Repr, DecidableEq

/-- The pure part of GcalcliAuditor.log_command (source lines 142-174): the
AuditRecord assembled from the arguments before the INSERT.  The wall-clock
timestamp is supplied by the caller. -/
def log_command_record (session_id : String) (timestamp : String) (args : List String)
    (success : Bool) (output : String) (error : Option String) (event_id : Option String) :
    AuditRecord :=
  let details := parse_gcalcli_command args
  { timestamp := timestamp
    operation := details.operation
    command := String.mk (joinSpace args)
    calendar_name := details.calendar_name
    event_title := details.event_title
    event_date := details.event_date
    event_id := event_id
    case_number := details.case_number
    defendant_name := details.defendant_name
    success := success
    error_message := error
    output := output
    session_id := session_id
    metadata_args := args }

/-- Result of the subprocess.run call on source line 218: normal completion
with an exit code and captured output, expiry of the 30-second timeout
(subprocess.TimeoutExpired), or any other raised launch error. -/
inductive ExecOutcome where
  | completed (returncode : Int) (stdout : String) (stderr : String)
  | timedOut
  | raised (msg : String)
deriving Repr, DecidableEq

/-- Externally visible events of one wrapper run, in program order:
database-file initialization by the auditor constructor, the subprocess
invocation, a committed audit INSERT, and an audit INSERT that raised. -/
inductive Event where
  | initDB
  | invoke (args : List String)
  | append (r : AuditRecord)
  | appendFailed (msg : String)
deriving Repr, DecidableEq

/-- Outcome of execute_gcalcli_with_audit: the returned
(success, output, error) triple, or an exception escaping the function. -/
inductive ExecResult where
  | returned (success : Bool) (output : String) (error : Option String)
  | crashed (msg : String)
deriving Repr, DecidableEq

/-- Substring test (Python in operator on str, source line 226). -/
def containsSub (needle : List Char) : List Char → Bool
  | [] => decide (needle = [])
  | c :: rest => decide ((c :: rest).take needle.length = needle) || containsSub needle rest

/-- Matching Event\s+(?:created|added):\s*(\S+) anchored at the start of the
input (source line 228).  After the greedy \s+ the next character is not
whitespace, and the ordered alternation reduces to testing the literal
created: then added:; the final \s* then (\S+) takes the maximal whitespace
run and then requires a nonempty maximal non-whitespace run. -/
def matchEventIdAt (cs : List Char) : Option (List Char) :=
  if cs.take 5 = "Event".data then
    match dropSpaces1 (cs.drop 5) with
    | none => none
    | some q =>
      let afterWord :=
        if q.take 8 = "created:".data then some (q.drop 8)
        else if q.take 6 = "added:".data then some (q.drop 6)
        else none
      match afterWord with
      | none => none
      | some r =>
        let idtok := (r.dropWhile isSpaceChar).takeWhile (fun c => !(isSpaceChar c))
        if idtok = [] then none else some idtok
  else none

/-- re.search of the event-id pattern: leftmost match. -/
def searchEventId : List Char → Option (List Char)
  | [] => none
  | c :: rest =>
    match matchEventIdAt (c :: rest) with
    | some m => some m
    | none => searchEventId rest

/-- Event-id extraction from successful output (source lines 225-230). -/
def extractEventId (success : Bool) (output : String) : Option String :=
  if success &&
      (containsSub "Event created".data output.data || containsSub "Event added".data output.data) then
    (searchEventId output.data).map (fun l => String.mk l)
  else none

/-- execute_gcalcli_with_audit (source lines 205-244).  The subprocess
result is the outcome parameter; store n is the error raised by the n-th
INSERT attempt of this run (none when the INSERT commits).  Control flow of
the source: on completion the record is built and inserted inside the try
block, so an INSERT failure is caught by the generic except-Exception
handler, relabelled as an execution error, and a second INSERT is attempted
from the handler; on timeout the fixed message is logged from the
TimeoutExpired handler; an INSERT failure inside either except handler
escapes the function. -/
def execute_gcalcli_with_audit (session_id : String) (now : String)
    (store : Nat → Option String) (args : List String) (outcome : ExecOutcome) :
    ExecResult × List Event :=
  match outcome with
  | .completed rc stdout stderr =>
    let success := rc == 0
    let output := stdout
    let error := if success then none else some stderr
    let event_id := extractEventId success output
    let r := log_command_record session_id now args success output error event_id
    match store 0 with
    | none => (.returned success output error, [.invoke args, .append r])
    | some m =>
      let error2 := "Execution error: " ++ m
      let r2 := log_command_record session_id now args false "" (some error2) none
      match store 1 with
      | none => (.returned false "" (some error2), [.invoke args, .appendFailed m, .append r2])
      | some m2 => (.crashed m2, [.invoke args, .appendFailed m, .appendFailed m2])
  | .timedOut =>
    let error := "Command timed out"
    let r := log_command_record session_id now args false "" (some error) none
    match store 0 with
    | none => (.returned false "" (some error), [.invoke args, .append r])
    | some m => (.crashed m, [.invoke args, .appendFailed m])
  | .raised msg =>
    let error := "Execution error: " ++ msg
    let r := log_command_record session_id now args false "" (some error) none
    match store 0 with
    | none => (.returned false "" (some error), [.invoke args, .append r])
    | some m => (.crashed m, [.invoke args, .appendFailed m])

/-- Exit of the wrapper process: sys.exit code, or an uncaught exception. -/
inductive MainResult where
  | exited (code : Nat)
  | crashed (msg : String)
deriving Repr, DecidableEq

/-- Removal of a single leading argparse separator (source lines 258-259). -/
def stripLeadingSep (args : List String) : List String :=
  match args with
  | "--" :: rest => rest
  | _ => args

/-- The main entry point from the point where the forwarded argument list is
in hand (source lines 255-281): strip one leading separator; with no
arguments left, exit 1 before the auditor or the executor is touched;
otherwise construct the auditor (which initializes the database file),
run execute_gcalcli_with_audit, and exit 0 exactly when the tool succeeded.
Printing of stdout/stderr and the quiet flag affect only console text and
are not modelled. -/
def main (gcalcli_args : List String) (session_id : String) (now : String)
    (store : Nat → Option String) (outcome : ExecOutcome) : MainResult × List Event :=
  let fwd := stripLeadingSep gcalcli_args
  if fwd = [] then (.exited 1, [])
  else
    let res := execute_gcalcli_with_audit session_id now store fwd outcome
    match res.1 with
    | .returned success _ _ =>
      ((if success then MainResult.exited 0 else MainResult.exited 1), Event.initDB :: res.2)
    | .crashed m => (.crashed m, Event.initDB :: res.2)

/-- State of the SQLite file at the configured path: no file, or a file that
may or may not contain the calendar_audit table, with its rows. -/
inductive DBState where
  | absent
  | file (hasTable : Bool) (rows : List AuditRecord)
deriving Repr, DecidableEq

/-- GcalcliAuditor._init_database (source lines 33-75): the migration (or
its inline fallback, CREATE TABLE IF NOT EXISTS) runs only when the
database file does not exist; an existing file is left untouched whatever
it contains. -/
def init_database (s : DBState) : DBState :=
  match s with
  | .absent => .file true []
  | .file b rows => .file b rows

/-- Rows stored at the path. -/
def dbRows : DBState → List AuditRecord
  | .absent => []
  | .file _ rows => rows

/-- Whether the calendar_audit table exists at the path. -/
def hasAuditTable : DBState → Bool
  | .absent => false
  | .file b _ => b

/-! Helper lemmas about the scanning primitives. -/

theorem dropWhile_head_false {α : Type} {p : α → Bool} {l : List α} {c : α} {cs : List α}
    (h : l.dropWhile p = c :: cs) : p c = false := by
  induction l with
  | nil => simp at h
  | cons a l ih =>
    rw [List.dropWhile_cons] at h
    by_cases hp : p a = true
    · rw [if_pos hp] at h
      exact ih h
    · rw [if_neg hp] at h
      injection h with h1 h2
      subst h1
      simpa using hp

theorem dropSpaces1_decomp {cs q : List Char} (h : dropSpaces1 cs = some q) :
    ∃ ws, cs = ws ++ q ∧ ws ≠ [] ∧ ∀ c ∈ ws, isSpaceChar c = true := by
  match cs with
  | [] => simp [dropSpaces1] at h
  | c :: rest =>
    simp only [dropSpaces1] at h
    by_cases hc : isSpaceChar c = true
    · rw [if_pos hc] at h
      injection h with h
      refine ⟨c :: rest.takeWhile isSpaceChar, ?_, by simp, ?_⟩
      · rw [← h]
        simp [List.takeWhile_append_dropWhile]
      · intro x hx
        rcases List.mem_cons.mp hx with rfl | hx
        · exact hc
        · exact List.mem_takeWhile_imp hx
    · rw [if_neg hc] at h
      exact absurd h (by simp)

theorem matchQuoted_decomp {cs cap : List Char} (h : matchQuoted cs = some cap) :
    ∃ rest, cs = '"' :: (cap ++ '"' :: rest) ∧ cap ≠ [] ∧ ∀ c ∈ cap, c ≠ '"' := by
  match cs with
  | [] => simp [matchQuoted] at h
  | c :: r =>
    simp only [matchQuoted] at h
    by_cases hc : c = '"'
    · rw [if_pos hc] at h
      subst hc
      set t := r.takeWhile (fun x => x != '"') with ht
      by_cases h1 : t = []
      · rw [if_pos h1] at h
        exact absurd h (by simp)
      · rw [if_neg h1] at h
        by_cases h2 : r.drop t.length = []
        · rw [if_pos h2] at h
          exact absurd h (by simp)
        · rw [if_neg h2] at h
          injection h with h
          subst h
          have hr : t ++ r.dropWhile (fun x => x != '"') = r :=
            List.takeWhile_append_dropWhile _ _
          have hdrop : r.drop t.length = r.dropWhile (fun x => x != '"') := by
            conv_lhs => rw [← hr]
            exact List.drop_left _ _
          rw [hdrop] at h2
          match hd : r.dropWhile (fun x => x != '"') with
          | [] => exact absurd hd h2
          | e :: d =>
            have he : (e != '"') = false := @dropWhile_head_false Char (fun x => x != '"') r e d hd
            have he2 : e = '"' := by simpa using he
            subst he2
            refine ⟨d, ?_, h1, ?_⟩
            · rw [← hr, hd]
            · intro x hx
              have := List.mem_takeWhile_imp (ht ▸ hx)
              simpa using this
    · rw [if_neg hc] at h
      exact absurd h (by simp)

theorem matchKeyAt_decomp {key cs cap : List Char} (h : matchKeyAt key cs = some cap) :
    ∃ ws rest, cs = key ++ (ws ++ ('"' :: (cap ++ '"' :: rest))) ∧ ws ≠ [] ∧
      (∀ c ∈ ws, isSpaceChar c = true) ∧ cap ≠ [] ∧ ∀ c ∈ cap, c ≠ '"' := by
  simp only [matchKeyAt] at h
  by_cases htake : cs.take key.length = key
  · rw [if_pos htake] at h
    match hq : dropSpaces1 (cs.drop key.length) with
    | none => rw [hq] at h; exact absurd h (by simp)
    | some q =>
      rw [hq] at h
      obtain ⟨ws, hws_eq, hws_ne, hws_mem⟩ := dropSpaces1_decomp hq
      obtain ⟨rest, hq_eq, hcap_ne, hcap_mem⟩ := matchQuoted_decomp h
      refine ⟨ws, rest, ?_, hws_ne, hws_mem, hcap_ne, hcap_mem⟩
      conv_lhs => rw [← List.take_append_drop key.length cs]
      rw [htake, hws_eq, hq_eq]
  · rw [if_neg htake] at h
    exact absurd h (by simp)

theorem searchFlag_decomp {key cs cap : List Char} (h : searchFlag key cs = some cap) :
    ∃ p ws rest, cs = p ++ (key ++ (ws ++ ('"' :: (cap ++ '"' :: rest)))) ∧ ws ≠ [] ∧
      (∀ c ∈ ws, isSpaceChar c = true) ∧ cap ≠ [] ∧ ∀ c ∈ cap, c ≠ '"' := by
  induction cs with
  | nil => simp [searchFlag] at h
  | cons c rest ih =>
    rw [searchFlag] at h
    match hm : matchKeyAt key (c :: rest) with
    | some cap2 =>
      rw [hm] at h
      injection h with h
      subst h
      obtain ⟨ws, r, hcs, hws_ne, hws_mem, hcap_ne, hcap_mem⟩ := matchKeyAt_decomp hm
      exact ⟨[], ws, r, by simpa using hcs, hws_ne, hws_mem, hcap_ne, hcap_mem⟩
    | none =>
      rw [hm] at h
      obtain ⟨p, ws, r, hcs, hws_ne, hws_mem, hcap_ne, hcap_mem⟩ := ih h
      exact ⟨c :: p, ws, r, by simp [hcs], hws_ne, hws_mem, hcap_ne, hcap_mem⟩

theorem containsSub_nil_left (l : List Char) : containsSub [] l = true := by
  cases l <;> simp [containsSub]

theorem containsSub_append (key p s : List Char) : containsSub key (p ++ (key ++ s)) = true := by
  induction p with
  | nil =>
    match key with
    | [] => simpa using containsSub_nil_left s
    | k :: key' =>
      show containsSub (k :: key') ((k :: key') ++ s) = true
      rw [List.cons_append, containsSub]
      simp [List.take_left]
  | cons c p' ih =>
    rw [List.cons_append, containsSub]
    simp [ih]

theorem searchFlag_some_key_sub {key cs cap : List Char} (h : searchFlag key cs = some cap) :
    containsSub key cs = true := by
  obtain ⟨p, ws, rest, hcs, _⟩ := searchFlag_decomp h
  rw [hcs]
  exact containsSub_append key p _

theorem searchFlag_none_of_no_key {key cs : List Char} (h : containsSub key cs = false) :
    searchFlag key cs = none := by
  match hs : searchFlag key cs with
  | none => rfl
  | some cap => exact absurd (searchFlag_some_key_sub hs) (by simp [h])

theorem isSpaceChar_ne_quote {c : Char} (h : isSpaceChar c = true) : c ≠ '"' := by
  intro hc
  subst hc
  simp [isSpaceChar] at h

theorem searchFlag_quote_mem {key cs cap : List Char} (h : searchFlag key cs = some cap) :
    '"' ∈ cs := by
  obtain ⟨p, ws, rest, hcs, _⟩ := searchFlag_decomp h
  rw [hcs]
  simp

theorem quote_split_unique (A B C D : List Char) (h : A ++ '"' :: B = C ++ '"' :: D)
    (hA : '"' ∉ A) (hC : '"' ∉ C) : A = C ∧ B = D := by
  induction A generalizing C with
  | nil =>
    match C with
    | [] => simpa using h
    | c :: C' =>
      rw [List.nil_append, List.cons_append] at h
      injection h with h1 h2
      subst h1
      simp at hC
  | cons a A' ih =>
    match C with
    | [] =>
      rw [List.cons_append, List.nil_append] at h
      injection h with h1 h2
      subst h1
      simp at hA
    | c :: C' =>
      rw [List.cons_append, List.cons_append] at h
      injection h with h1 h2
      subst h1
      have hA' : '"' ∉ A' := fun hm => hA (List.mem_cons_of_mem _ hm)
      have hC' : '"' ∉ C' := fun hm => hC (List.mem_cons_of_mem _ hm)
      obtain ⟨e1, e2⟩ := ih C' h2 hA' hC'
      exact ⟨by rw [e1], e2⟩

theorem searchFlag_title_none_on_quick {t : List Char} (ht : ∀ c ∈ t, c ≠ '"') :
    searchFlag "--title".data ('q' :: 'u' :: 'i' :: 'c' :: 'k' :: ' ' :: '"' :: (t ++ ['"'])) = none := by
  match hs : searchFlag "--title".data ('q' :: 'u' :: 'i' :: 'c' :: 'k' :: ' ' :: '"' :: (t ++ ['"'])) with
  | none => rfl
  | some cap =>
    exfalso
    obtain ⟨p, ws, rest, hcs, hws_ne, hws_mem, hcap_ne, hcap_mem⟩ := searchFlag_decomp hs
    have htq : '"' ∉ t := fun hm => ht _ hm rfl
    have hwq : '"' ∉ ws := fun hm => isSpaceChar_ne_quote (hws_mem _ hm) rfl
    have hcq : '"' ∉ cap := fun hm => hcap_mem _ hm rfl
    have htitleq : '"' ∉ "--title".data := by decide
    have hcnt := congrArg (List.count '"') hcs
    simp [List.count_cons, List.count_append,
      List.count_eq_zero.mpr htq, List.count_eq_zero.mpr hwq, List.count_eq_zero.mpr hcq,
      List.count_eq_zero.mpr htitleq] at hcnt
    have hpq : '"' ∉ p := List.count_eq_zero.mp (by omega)
    have h2 : (['q','u','i','c','k',' '] : List Char) ++ '"' :: (t ++ ['"'])
        = (p ++ ("--title".data ++ ws)) ++ '"' :: (cap ++ '"' :: rest) := by
      rw [List.append_assoc, List.append_assoc]
      exact hcs
    have hCq : '"' ∉ p ++ ("--title".data ++ ws) := by
      intro hm
      rcases List.mem_append.mp hm with hm | hm
      · exact hpq hm
      rcases List.mem_append.mp hm with hm | hm
      · exact htitleq hm
      · exact hwq hm
    obtain ⟨hAeq, _⟩ := quote_split_unique ['q','u','i','c','k',' '] (t ++ ['"'])
      (p ++ ("--title".data ++ ws)) (cap ++ '"' :: rest) h2 (by decide) hCq
    have hlen := congrArg List.length hAeq
    simp only [List.length_append, List.length_cons, List.length_nil] at hlen
    have hws_len : ws.length ≠ 0 := fun h0 => hws_ne (List.length_eq_zero.mp h0)
    have htl : ("--title".data).length = 7 := by decide
    omega

theorem takeWhile_ne_quote_append {t : List Char} (ht : ∀ c ∈ t, c ≠ '"') :
    (t ++ ['"']).takeWhile (fun x => x != '"') = t := by
  induction t with
  | nil => simp
  | cons a t ih =>
    have ha : a ≠ '"' := ht a (List.mem_cons_self a t)
    rw [List.cons_append, List.takeWhile_cons, if_pos (by simpa using ha),
      ih (fun c hc => ht c (List.mem_cons_of_mem a hc))]

theorem matchKeyAt_quick_quoted {t : List Char} (htne : t ≠ []) (ht : ∀ c ∈ t, c ≠ '"') :
    matchKeyAt "quick".data ('q' :: 'u' :: 'i' :: 'c' :: 'k' :: ' ' :: '"' :: (t ++ ['"'])) = some t := by
  show (if (t ++ ['"']).takeWhile (fun x => x != '"') = [] then none
      else if (t ++ ['"']).drop ((t ++ ['"']).takeWhile (fun x => x != '"')).length = [] then none
      else some ((t ++ ['"']).takeWhile (fun x => x != '"'))) = some t
  simp only [takeWhile_ne_quote_append ht]
  rw [if_neg htne, List.drop_left t ['"']]
  simp

theorem searchFlag_quick_quoted {t : List Char} (htne : t ≠ []) (ht : ∀ c ∈ t, c ≠ '"') :
    searchFlag "quick".data ('q' :: 'u' :: 'i' :: 'c' :: 'k' :: ' ' :: '"' :: (t ++ ['"'])) = some t := by
  rw [searchFlag, matchKeyAt_quick_quoted htne ht]

theorem parse_quick_quoted_title {t : List Char} (htne : t ≠ []) (ht : ∀ c ∈ t, c ≠ '"') :
    (parse_gcalcli_command ["quick", String.mk ('"' :: (t ++ ['"']))]).event_title
      = some (String.mk t) := by
  have hcmd : joinSpace ["quick", String.mk ('"' :: (t ++ ['"']))]
      = 'q' :: 'u' :: 'i' :: 'c' :: 'k' :: ' ' :: '"' :: (t ++ ['"']) := rfl
  simp only [parse_gcalcli_command, hcmd, searchFlag_title_none_on_quick ht]
  rw [if_pos (List.mem_cons_self "quick" _), searchFlag_quick_quoted htne ht]
  rfl

theorem parse_case_number_derived (args : List String) :
    (parse_gcalcli_command args).case_number
      = ((parse_gcalcli_command args).event_title).bind
          (fun t => (searchCase t.data).map (fun l => String.mk l)) := rfl

theorem parse_defendant_derived (args : List String) :
    (parse_gcalcli_command args).defendant_name
      = ((parse_gcalcli_command args).event_title).bind
          (fun t => (searchCourt t.data).map (fun l => String.mk (stripSpaces l))) := rfl

/-! Claim theorems. -/

/-- Claim C1: for every invocation of the wrapper with a non-empty
forwarded-argument list (and a store whose INSERTs commit), exactly one
AuditRecord is appended to the audit store, and only after the subprocess
invocation: the event trace is exactly initialization, invocation, then one
append — for every executor outcome, including failure, timeout and a
raised execution error. -/
theorem claim_C1_audit_append_exactly_once
    (gargs : List String) (sess now : String) (outcome : ExecOutcome)
    (store : Nat → Option String)
    (hne : stripLeadingSep gargs ≠ []) (hstore : ∀ n, store n = none) :
    ∃ r, (main gargs sess now store outcome).2
      = [Event.initDB, Event.invoke (stripLeadingSep gargs), Event.append r] := by
  unfold main
  rw [if_neg hne]
  cases outcome with
  | completed rc stdout stderr =>
    simp [execute_gcalcli_with_audit, hstore 0]
  | timedOut =>
    simp [execute_gcalcli_with_audit, hstore 0]
  | raised msg =>
    simp [execute_gcalcli_with_audit, hstore 0]

theorem claim_C1_witness :
    stripLeadingSep ["agenda"] ≠ [] ∧
    ∃ r, (main ["agenda"] "sess" "now" (fun _ => none)
        (ExecOutcome.completed 0 "out" "")).2
      = [Event.initDB, Event.invoke (stripLeadingSep ["agenda"]), Event.append r] :=
  ⟨by decide, claim_C1_audit_append_exactly_once ["agenda"] "sess" "now"
    (ExecOutcome.completed 0 "out" "") (fun _ => none) (by decide) (fun _ => rfl)⟩

/-- Claim C2: the code contradicts this claim.  When the subprocess exits 0
but the first audit INSERT raises (for example disk full), the failure is
caught by the generic except-Exception handler of
execute_gcalcli_with_audit, relabelled "Execution error: ...", and returned
as a tool-execution failure with success false — not surfaced as a distinct
storage error — and a second INSERT is attempted from inside the handler. -/
theorem claim_C2_storage_error_relabelled :
    (execute_gcalcli_with_audit "sess" "now"
        (fun n => if n = 0 then some "disk full" else none)
        ["agenda"] (ExecOutcome.completed 0 "ok" "")).1
      = ExecResult.returned false "" (some "Execution error: disk full")
    ∧ ∃ r2, (execute_gcalcli_with_audit "sess" "now"
        (fun n => if n = 0 then some "disk full" else none)
        ["agenda"] (ExecOutcome.completed 0 "ok" "")).2
      = [Event.invoke ["agenda"], Event.appendFailed "disk full", Event.append r2]
      ∧ r2.success = false ∧ r2.error_message = some "Execution error: disk full" :=
  ⟨by decide,
   log_command_record "sess" "now" ["agenda"] false "" (some "Execution error: disk full") none,
   by decide, by decide, by decide⟩

/-- Claim C3 counterexample: for the argument list ["quick", "hello"] — the
literal token quick followed by plain title text — event_title is not
extracted at all, because the pattern requires literal double-quote
characters inside the joined argument string. -/
theorem claim_C3_counterexample :
    (parse_gcalcli_command ["quick", "hello"]).event_title = none
    ∧ (parse_gcalcli_command ["quick", "hello"]).event_title ≠ some "hello" := by
  decide

/-- Claim C3 (amended): quick-add title extraction matches a literal
double-quoted string in the space-joined command.  For ["quick", text], it
yields the inner text exactly when text is itself a double-quoted string
(inner text nonempty and quote-free), and leaves event_title unset whenever
text contains no double-quote character. -/
theorem claim_C3_quick_title :
    (∀ t : List Char, t ≠ [] → (∀ c ∈ t, c ≠ '"') →
      (parse_gcalcli_command ["quick", String.mk ('"' :: (t ++ ['"']))]).event_title
        = some (String.mk t))
    ∧ (∀ u : List Char, (∀ c ∈ u, c ≠ '"') →
      (parse_gcalcli_command ["quick", String.mk u]).event_title = none) := by
  constructor
  · exact fun t htne ht => parse_quick_quoted_title htne ht
  · intro u hu
    have hnq : '"' ∉ joinSpace ["quick", String.mk u] := by
      show '"' ∉ "quick".data ++ ' ' :: u
      intro hm
      rcases List.mem_append.mp hm with hm | hm
      · revert hm; decide
      · rcases List.mem_cons.mp hm with h | h
        · simp at h
        · exact hu _ h rfl
    have h1 : searchFlag "--title".data (joinSpace ["quick", String.mk u]) = none := by
      match h : searchFlag "--title".data (joinSpace ["quick", String.mk u]) with
      | none => rfl
      | some cap => exact absurd (searchFlag_quote_mem h) hnq
    have h2 : searchFlag "quick".data (joinSpace ["quick", String.mk u]) = none := by
      match h : searchFlag "quick".data (joinSpace ["quick", String.mk u]) with
      | none => rfl
      | some cap => exact absurd (searchFlag_quote_mem h) hnq
    simp [parse_gcalcli_command, h1, h2]

theorem claim_C3_witness :
    (['h','i'] : List Char) ≠ [] ∧
    (parse_gcalcli_command ["quick", String.mk ('"' :: (['h','i'] ++ ['"']))]).event_title
      = some (String.mk ['h','i']) :=
  ⟨by decide, claim_C3_quick_title.1 ['h','i'] (by decide) (by decide)⟩

/-- Claim C4 counterexample: in end-to-end scenario A the argument list
["agenda", "--calendar", "Work", ...] carries no literal quote characters,
so the --calendar pattern does not match and calendar_name is unset, not
Work. -/
theorem claim_C4_counterexample :
    (parse_gcalcli_command
        ["agenda", "--calendar", "Work", "2024-01-01", "2024-01-31"]).calendar_name = none
    ∧ (parse_gcalcli_command
        ["agenda", "--calendar", "Work", "2024-01-01", "2024-01-31"]).calendar_name
      ≠ some "Work" := by
  decide

/-- Claim C4 (amended): calendar extraction matches the literally quoted
form in the joined command, so an argument carrying the quotes yields Work;
an argument list in which --calendar does not occur as a substring of the
joined command leaves calendar_name unset (the parser is total, hence never
raises); and scenario A yields exit 0 and one audit row with operation read
and success true — but with calendar_name unset, since the argv carries no
literal quotes. -/
theorem claim_C4_calendar_extraction :
    (parse_gcalcli_command ["agenda", "--calendar", "\"Work\""]).calendar_name = some "Work"
    ∧ (∀ args : List String, containsSub "--calendar".data (joinSpace args) = false →
        (parse_gcalcli_command args).calendar_name = none)
    ∧ (∃ r, main ["agenda", "--calendar", "Work", "2024-01-01", "2024-01-31"] "sess" "now"
          (fun _ => none) (ExecOutcome.completed 0 "agenda text" "")
        = (MainResult.exited 0,
           [Event.initDB,
            Event.invoke ["agenda", "--calendar", "Work", "2024-01-01", "2024-01-31"],
            Event.append r])
        ∧ r.operation = "read" ∧ r.success = true ∧ r.calendar_name = none) := by
  refine ⟨by decide, ?_, ?_⟩
  · intro args h
    simp [parse_gcalcli_command, searchFlag_none_of_no_key h]
  · exact ⟨log_command_record "sess" "now"
      ["agenda", "--calendar", "Work", "2024-01-01", "2024-01-31"] true "agenda text" none none,
      by decide, by decide, by decide, by decide⟩

theorem claim_C4_witness :
    containsSub "--calendar".data (joinSpace ["agenda"]) = false
    ∧ (parse_gcalcli_command ["agenda"]).calendar_name = none :=
  ⟨by decide, claim_C4_calendar_extraction.2.1 ["agenda"] (by decide)⟩

/-- Claim C5 counterexample: an argument list containing delete and an
event identifier but also the token add is classified add, because the
classification checks add/quick before delete. -/
theorem claim_C5_counterexample :
    (parse_gcalcli_command ["delete", "12345", "add"]).operation = "add"
    ∧ (parse_gcalcli_command ["delete", "12345", "add"]).operation ≠ "delete" := by
  decide

/-- Claim C5 (amended): every argument list containing the token delete is
classified delete regardless of other flags or tokens present, provided
none of the earlier-priority tokens add, quick and edit occurs as a
standalone argument. -/
theorem claim_C5_delete_classification
    (args : List String) (h1 : "delete" ∈ args)
    (h2 : "add" ∉ args) (h3 : "quick" ∉ args) (h4 : "edit" ∉ args) :
    (parse_gcalcli_command args).operation = "delete" := by
  simp [parse_gcalcli_command, h1, h2, h3, h4]

theorem claim_C5_witness :
    "delete" ∈ (["delete", "12345", "--calendar", "x"] : List String)
    ∧ (parse_gcalcli_command ["delete", "12345", "--calendar", "x"]).operation = "delete" :=
  ⟨by decide, claim_C5_delete_classification ["delete", "12345", "--calendar", "x"]
    (by decide) (by decide) (by decide) (by decide)⟩

/-- Claim C6 counterexample: in end-to-end scenario B the argument
["quick", "Court: Jane Doe - A-2024-CR-0099-1"] carries no literal quote
characters, so no event_title is extracted and case_number and
defendant_name remain unset, contradicting the claimed audit row. -/
theorem claim_C6_counterexample :
    (parse_gcalcli_command ["quick", "Court: Jane Doe - A-2024-CR-0099-1"]).event_title = none
    ∧ (parse_gcalcli_command ["quick", "Court: Jane Doe - A-2024-CR-0099-1"]).case_number
        ≠ some "A-2024-CR-0099-1"
    ∧ (parse_gcalcli_command ["quick", "Court: Jane Doe - A-2024-CR-0099-1"]).defendant_name
        ≠ some "Jane Doe" := by
  decide

/-- Claim C6 (amended): case_number and defendant_name are derived solely
from event_title — when event_title is unset they are unset without error,
and when it is set, case_number is the leftmost substring of the title
matching the fixed pattern (none when there is no match); scenario B holds
once the title argument carries literal quotes: the audit row then has
operation add, the given title, case_number A-2024-CR-0099-1 and
defendant_name Jane Doe. -/
theorem claim_C6_case_defendant :
    (∀ args : List String, (parse_gcalcli_command args).event_title = none →
        (parse_gcalcli_command args).case_number = none
        ∧ (parse_gcalcli_command args).defendant_name = none)
    ∧ (∀ (args : List String) (ttl : String),
        (parse_gcalcli_command args).event_title = some ttl →
        (parse_gcalcli_command args).case_number
          = (searchCase ttl.data).map (fun l => String.mk l))
    ∧ (∃ r, main ["quick", "\"Court: Jane Doe - A-2024-CR-0099-1\""] "sess" "now"
          (fun _ => none) (ExecOutcome.completed 0 "" "")
        = (MainResult.exited 0,
           [Event.initDB,
            Event.invoke ["quick", "\"Court: Jane Doe - A-2024-CR-0099-1\""],
            Event.append r])
        ∧ r.operation = "add"
        ∧ r.event_title = some "Court: Jane Doe - A-2024-CR-0099-1"
        ∧ r.case_number = some "A-2024-CR-0099-1"
        ∧ r.defendant_name = some "Jane Doe") := by
  refine ⟨?_, ?_, ?_⟩
  · intro args h
    rw [parse_case_number_derived, parse_defendant_derived, h]
    exact ⟨rfl, rfl⟩
  · intro args ttl h
    rw [parse_case_number_derived, h]
    rfl
  · exact ⟨log_command_record "sess" "now"
      ["quick", "\"Court: Jane Doe - A-2024-CR-0099-1\""] true "" none none,
      by decide, by decide, by decide, by decide, by decide⟩

theorem claim_C6_witness :
    (parse_gcalcli_command ["agenda"]).event_title = none
    ∧ (parse_gcalcli_command ["agenda"]).case_number = none
    ∧ (parse_gcalcli_command ["agenda"]).defendant_name = none :=
  ⟨by decide, claim_C6_case_defendant.1 ["agenda"] (by decide)⟩

/-- Claim C7: when the subprocess exceeds the 30-second timeout, the
executor returns failure with the fixed message "Command timed out" and
empty output (never partial stdout), and the failed attempt is still logged:
the audit record carries success false, the fixed error message and empty
output (given a store whose INSERT commits). -/
theorem claim_C7_timeout (args : List String) (sess now : String)
    (store : Nat → Option String) (h : store 0 = none) :
    ∃ r, execute_gcalcli_with_audit sess now store args ExecOutcome.timedOut
        = (ExecResult.returned false "" (some "Command timed out"),
           [Event.invoke args, Event.append r])
      ∧ r.success = false ∧ r.error_message = some "Command timed out" ∧ r.output = "" := by
  refine ⟨log_command_record sess now args false "" (some "Command timed out") none, ?_, rfl, rfl, rfl⟩
  simp [execute_gcalcli_with_audit, h]

theorem claim_C7_witness :
    ((fun _ : Nat => (none : Option String)) 0 = none)
    ∧ ∃ r, execute_gcalcli_with_audit "sess" "now" (fun _ => none) ["agenda"] ExecOutcome.timedOut
        = (ExecResult.returned false "" (some "Command timed out"),
           [Event.invoke ["agenda"], Event.append r])
      ∧ r.success = false ∧ r.error_message = some "Command timed out" ∧ r.output = "" :=
  ⟨rfl, claim_C7_timeout ["agenda"] "sess" "now" (fun _ => none) rfl⟩

/-- Claim C8: when the wrapper is invoked with an empty forwarded-argument
list (after stripping a single leading separator), it exits with status 1
and the event trace is empty: no database initialization, no subprocess
invocation, no audit row. -/
theorem claim_C8_empty_args (gargs : List String) (sess now : String)
    (store : Nat → Option String) (outcome : ExecOutcome)
    (h : stripLeadingSep gargs = []) :
    main gargs sess now store outcome = (MainResult.exited 1, []) := by
  simp [main, h]

theorem claim_C8_witness :
    stripLeadingSep [] = []
    ∧ main [] "sess" "now" (fun _ => none) ExecOutcome.timedOut = (MainResult.exited 1, []) :=
  ⟨rfl, claim_C8_empty_args [] "sess" "now" (fun _ => none) ExecOutcome.timedOut rfl⟩

/-- Claim C9 counterexample: initialization checks only whether the
database file exists, so on a path holding a pre-existing file without the
calendar_audit table it does nothing and the table still does not exist
afterwards. -/
theorem claim_C9_counterexample :
    hasAuditTable (init_database (DBState.file false [])) = false := rfl

/-- Claim C9 (amended): store initialization is idempotent and never alters
or drops existing rows, and it creates the audit table when the database
file is absent; a pre-existing file is left untouched even when it lacks
the table, so table existence is only guaranteed when the file was created
by this component. -/
theorem claim_C9_init_idempotent (s : DBState) :
    init_database (init_database s) = init_database s
    ∧ dbRows (init_database s) = dbRows s
    ∧ hasAuditTable (init_database DBState.absent) = true := by
  cases s <;> exact ⟨rfl, rfl, rfl⟩

/-- Claim C10: operation classification tests literal tokens by exact
whole-argument equality (Python list membership), not substring search: a
classification of add, edit, delete or read implies the respective token is
an element of the argument list, and tokens embedded in longer arguments
(quick-add, deleted, "agenda summary") leave the classification unknown. -/
theorem claim_C10_token_classification :
    (∀ args : List String,
      ((parse_gcalcli_command args).operation = "add" → "add" ∈ args ∨ "quick" ∈ args)
      ∧ ((parse_gcalcli_command args).operation = "edit" → "edit" ∈ args)
      ∧ ((parse_gcalcli_command args).operation = "delete" → "delete" ∈ args)
      ∧ ((parse_gcalcli_command args).operation = "read" → "agenda" ∈ args ∨ "list" ∈ args))
    ∧ (parse_gcalcli_command ["quick-add"]).operation = "unknown"
    ∧ (parse_gcalcli_command ["remove", "deleted", "agenda summary"]).operation = "unknown" := by
  refine ⟨?_, by decide, by decide⟩
  intro args
  simp only [parse_gcalcli_command]
  split_ifs with h1 h2 h3 h4 <;> refine ⟨?_, ?_, ?_, ?_⟩ <;> intro h <;> simp_all

theorem claim_C10_witness :
    (parse_gcalcli_command ["delete", "x"]).operation = "delete"
    ∧ "delete" ∈ (["delete", "x"] : List String) :=
  ⟨by decide, (claim_C10_token_classification.1 ["delete", "x"]).2.2.1 (by decide)⟩

end GcalcliWrapper
